import Mathlib

/-!
Shallow embedding of the Vulkan bootstrap program (src/main.rs of
hlah/vulkan-tutorial-rs): queue-family resolution, physical-device
selection, and swapchain parameter negotiation.

Pure functions of the source become Lean functions; the capability data
queried from the driver (queue families, supported device extensions,
surface capabilities) is embedded as record fields of a physical-device
value.  Fallible code (panicking slice indexing, the expect on device
selection) returns Option or Except.
-/

/-- Embeds the constant WIDTH: u32 = 800 (src/main.rs line 36). -/
def WIDTH : Nat := 800

/-- Embeds the constant HEIGHT: u32 = 600 (src/main.rs line 37). -/
def HEIGHT : Nat := 600

/-- A queue family as consulted by find_queue_families: only the
supports_graphics capability flag of the vulkano QueueFamily is read. -/
structure QueueFamily where
  supports_graphics : Bool
deriving DecidableEq, Repr

/-- Embeds struct QueueFamilyIndices (src/main.rs lines 57-60): two i32
indices with -1 as the "not found" sentinel. -/
structure QueueFamilyIndices where
  graphics_family : Int
  present_family : Int
deriving DecidableEq, Repr

/-- Embeds QueueFamilyIndices::new (src/main.rs lines 62-64). -/
def QueueFamilyIndices.new : QueueFamilyIndices :=
  { graphics_family := -1, present_family := -1 }

/-- Embeds QueueFamilyIndices::is_complete (src/main.rs lines 66-68). -/
def QueueFamilyIndices.is_complete (q : QueueFamilyIndices) : Bool :=
  decide (0 ≤ q.graphics_family) && decide (0 ≤ q.present_family)

/-- The vulkano DeviceExtensions struct of booleans, restricted to a
representative set of fields; only khr_swapchain is ever required by the
program, the others model the rest of the extension set. -/
structure DeviceExtensions where
  khr_swapchain : Bool
  khr_display_swapchain : Bool
  khr_sampler_mirror_clamp_to_edge : Bool
  khr_maintenance1 : Bool
  ext_debug_marker : Bool
deriving DecidableEq, Repr

/-- Embeds DeviceExtensions::none(): every extension flag false. -/
def DeviceExtensions.none : DeviceExtensions :=
  { khr_swapchain := false, khr_display_swapchain := false,
    khr_sampler_mirror_clamp_to_edge := false, khr_maintenance1 := false,
    ext_debug_marker := false }

/-- Embeds DeviceExtensions::intersection: field-wise conjunction. -/
def DeviceExtensions.intersection (a b : DeviceExtensions) : DeviceExtensions :=
  { khr_swapchain := a.khr_swapchain && b.khr_swapchain,
    khr_display_swapchain := a.khr_display_swapchain && b.khr_display_swapchain,
    khr_sampler_mirror_clamp_to_edge :=
      a.khr_sampler_mirror_clamp_to_edge && b.khr_sampler_mirror_clamp_to_edge,
    khr_maintenance1 := a.khr_maintenance1 && b.khr_maintenance1,
    ext_debug_marker := a.ext_debug_marker && b.ext_debug_marker }

/-- Embeds fn device_extensions (src/main.rs lines 44-49): the required
extension set, khr_swapchain only. -/
def device_extensions : DeviceExtensions :=
  { DeviceExtensions.none with khr_swapchain := true }

/-- The vulkano Format enum, restricted to the constructors the program
distinguishes plus a tag for every other format. -/
inductive Format where
  | B8G8R8A8Unorm
  | R8G8B8A8Unorm
  | otherFormat (n : Nat)
deriving DecidableEq, Repr

/-- The vulkano ColorSpace enum, restricted likewise. -/
inductive ColorSpace where
  | SrgbNonLinear
  | otherColorSpace (n : Nat)
deriving DecidableEq, Repr

/-- The vulkano PresentMode enum. -/
inductive PresentMode where
  | Immediate
  | Mailbox
  | Fifo
  | Relaxed
deriving DecidableEq, Repr

/-- The vulkano SupportedPresentModes struct of booleans. -/
structure SupportedPresentModes where
  immediate : Bool
  mailbox : Bool
  fifo : Bool
  relaxed : Bool
  shared_demand : Bool
  shared_continuous : Bool
deriving DecidableEq, Repr

/-- Embeds the expression capabilities.present_modes.iter().next().is_some()
(src/main.rs line 177): true iff at least one present mode is supported. -/
def SupportedPresentModes.any_supported (m : SupportedPresentModes) : Bool :=
  m.immediate || m.mailbox || m.fifo || m.relaxed ||
    m.shared_demand || m.shared_continuous

/-- The vulkano Capabilities snapshot, restricted to the fields the
negotiation reads.  Extents are pairs of u32 components modelled as Nat;
max_image_count is None when the bound is infinite, mirroring vulkano. -/
structure Capabilities where
  min_image_count : Nat
  max_image_count : Option Nat
  current_extent : Option (Nat × Nat)
  min_image_extent : Nat × Nat
  max_image_extent : Nat × Nat
  supported_formats : List (Format × ColorSpace)
  present_modes : SupportedPresentModes
deriving DecidableEq, Repr

/-- A physical device together with everything the program queries about
it: its ordered queue-family list, its supported device extensions, and
the surface capabilities returned by query_swap_chain_support for it. -/
structure PhysicalDevice where
  queue_families : List QueueFamily
  supported_extensions : DeviceExtensions
  capabilities : Capabilities
deriving DecidableEq, Repr

/-- Embeds Rust Iterator::position: index of the first element satisfying
the predicate, None when there is none. -/
def position {α : Type} (p : α → Bool) : List α → Option Nat
  | [] => Option.none
  | x :: xs => if p x then Option.some 0 else (position p xs).map (· + 1)

/-- Embeds the Rust cast i as i32 (src/main.rs lines 326 and 330): the
usize index is truncated to its low 32 bits and reinterpreted as a
signed 32-bit value, so indices at or above 2 ^ 31 wrap to negatives. -/
def i32_cast (i : Nat) : Int :=
  if i % 2 ^ 32 < 2 ^ 31 then ((i % 2 ^ 32 : Nat) : Int)
  else ((i % 2 ^ 32 : Nat) : Int) - 2 ^ 32

/-- The loop body of find_queue_families (src/main.rs lines 324-337):
walks the enumerated families carrying the running index and the indices
record, storing the i32-cast index on each graphics-capable family and
breaking as soon as is_complete holds. -/
def find_queue_families_aux (i : Nat) (indices : QueueFamilyIndices) :
    List QueueFamily → QueueFamilyIndices
  | [] => indices
  | qf :: rest =>
    let indices' :=
      if qf.supports_graphics then
        { graphics_family := i32_cast i, present_family := i32_cast i }
      else indices
    if indices'.is_complete then indices'
    else find_queue_families_aux (i + 1) indices' rest

/-- Embeds fn find_queue_families (src/main.rs lines 321-340). -/
def find_queue_families (families : List QueueFamily) : QueueFamilyIndices :=
  find_queue_families_aux 0 QueueFamilyIndices.new families

/-- Embeds fn check_device_extension_support (src/main.rs lines 185-189):
the intersection of the available and required sets equals the required
set. -/
def check_device_extension_support (d : PhysicalDevice) : Bool :=
  decide (DeviceExtensions.intersection d.supported_extensions device_extensions
    = device_extensions)

/-- Embeds fn query_swap_chain_support (src/main.rs lines 232-235): the
surface-capability query for a device, a record field in this embedding. -/
def query_swap_chain_support (d : PhysicalDevice) : Capabilities :=
  d.capabilities

/-- Embeds fn is_device_suitable (src/main.rs lines 170-183). -/
def is_device_suitable (d : PhysicalDevice) : Bool :=
  let indices := find_queue_families d.queue_families
  let extensions_supported := check_device_extension_support d
  let swap_chain_adequate :=
    if extensions_supported then
      let capabilities := query_swap_chain_support d
      !capabilities.supported_formats.isEmpty &&
        capabilities.present_modes.any_supported
    else false
  indices.is_complete && extensions_supported && swap_chain_adequate

/-- Embeds fn pick_physical_device (src/main.rs lines 163-168) up to the
expect: the position of the first suitable device in enumeration order. -/
def pick_physical_device (devices : List PhysicalDevice) : Option Nat :=
  position is_device_suitable devices

/-- Embeds fn pick_physical_device including the expect (src/main.rs line
167): the panic becomes the error value carrying the panic message. -/
def pick_physical_device_result (devices : List PhysicalDevice) :
    Except String Nat :=
  match pick_physical_device devices with
  | Option.some i => Except.ok i
  | Option.none => Except.error "failed to find a suitable GPU!"

/-- Embeds fn choose_swap_surface_format (src/main.rs lines 237-245).
The unwrap_or_else falls back to indexing element 0, which panics on an
empty list; the panic becomes Option.none. -/
def choose_swap_surface_format (available_formats : List (Format × ColorSpace)) :
    Option (Format × ColorSpace) :=
  match available_formats.find? (fun fc =>
      decide (fc.1 = Format.B8G8R8A8Unorm) &&
        decide (fc.2 = ColorSpace.SrgbNonLinear)) with
  | Option.some fc => Option.some fc
  | Option.none => available_formats.head?

/-- Embeds fn choose_swap_present_mode (src/main.rs lines 247-255). -/
def choose_swap_present_mode (available_present_modes : SupportedPresentModes) :
    PresentMode :=
  if available_present_modes.mailbox then PresentMode.Mailbox
  else if available_present_modes.immediate then PresentMode.Immediate
  else PresentMode.Fifo

/-- Embeds fn choose_swap_extent (src/main.rs lines 257-268): the current
extent verbatim when defined, otherwise [WIDTH, HEIGHT] clamped
component-wise as min_image_extent.max(max_image_extent.min(actual)). -/
def choose_swap_extent (capabilities : Capabilities) : Nat × Nat :=
  match capabilities.current_extent with
  | Option.some current_extent => current_extent
  | Option.none =>
    (Nat.max capabilities.min_image_extent.1
        (Nat.min capabilities.max_image_extent.1 WIDTH),
     Nat.max capabilities.min_image_extent.2
        (Nat.min capabilities.max_image_extent.2 HEIGHT))

/-- Embeds the image-count computation of create_swap_chain (src/main.rs
lines 280-283).  min_image_count is a u32, so the increment wraps at
2 ^ 32 (the release-build semantics of the Rust addition). -/
def swap_chain_image_count (capabilities : Capabilities) : Nat :=
  let image_count := (capabilities.min_image_count + 1) % 2 ^ 32
  match capabilities.max_image_count with
  | Option.some m => if image_count > m then m else image_count
  | Option.none => image_count

/-- The vulkano SharingMode alternatives used by create_swap_chain. -/
inductive SharingMode where
  | Exclusive
  | Concurrent
deriving DecidableEq, Repr

/-- Embeds the sharing-mode choice of create_swap_chain (src/main.rs
lines 292-296): concurrent across both queues when the two family
indices differ, exclusive otherwise. -/
def swap_chain_sharing_mode (indices : QueueFamilyIndices) : SharingMode :=
  if indices.graphics_family ≠ indices.present_family then
    SharingMode.Concurrent
  else SharingMode.Exclusive

/-- The preferred surface-format pair of choose_swap_surface_format. -/
def preferred_format : Format × ColorSpace :=
  (Format.B8G8R8A8Unorm, ColorSpace.SrgbNonLinear)

theorem position_eq_none {α : Type} (p : α → Bool) :
    ∀ l : List α, position p l = Option.none ↔ ∀ x ∈ l, p x = false
  | [] => by simp [position]
  | x :: xs => by
    by_cases h : p x
    · simp [position, h]
    · simp only [Bool.not_eq_true] at h
      simp [position, h, position_eq_none p xs]

theorem position_eq_some {α : Type} (p : α → Bool) :
    ∀ (l : List α) (j : Nat), position p l = Option.some j →
      ∃ hj : j < l.length, p (l.get ⟨j, hj⟩) = true ∧
        ∀ k (hk : k < l.length), k < j → p (l.get ⟨k, hk⟩) = false
  | [], j => by simp [position]
  | x :: xs, j => by
    by_cases h : p x = true
    · intro hj
      simp only [position] at hj
      rw [if_pos h] at hj
      obtain rfl : (0 : Nat) = j := Option.some.inj hj
      exact ⟨Nat.succ_pos _, h, fun k hk hkj => absurd hkj (Nat.not_lt_zero k)⟩
    · intro hj
      simp only [position] at hj
      rw [if_neg h] at hj
      simp only [Bool.not_eq_true] at h
      cases hpos : position p xs with
      | none => rw [hpos] at hj; simp at hj
      | some j' =>
        rw [hpos] at hj
        simp only [Option.map_some'] at hj
        obtain rfl : j' + 1 = j := Option.some.inj hj
        obtain ⟨hlt, hp, hfirst⟩ := position_eq_some p xs j' hpos
        refine ⟨Nat.succ_lt_succ hlt, hp, ?_⟩
        intro k hk hkj
        match k with
        | 0 => exact h
        | k + 1 =>
          exact hfirst k (Nat.lt_of_succ_lt_succ hk) (Nat.lt_of_succ_lt_succ hkj)

theorem position_exists_of_mem {α : Type} (p : α → Bool) (l : List α)
    (x : α) (hx : x ∈ l) (hpx : p x = true) :
    ∃ j, position p l = Option.some j := by
  cases hpos : position p l with
  | some j => exact ⟨j, rfl⟩
  | none =>
    have := (position_eq_none p l).1 hpos x hx
    simp [hpx] at this

theorem position_eq_some_of_first {α : Type} (p : α → Bool) :
    ∀ (l : List α) (j : Nat) (hj : j < l.length),
      p (l.get ⟨j, hj⟩) = true →
      (∀ k (hk : k < l.length), k < j → p (l.get ⟨k, hk⟩) = false) →
      position p l = Option.some j
  | [], j, hj => by simp at hj
  | x :: xs, 0, hj => fun hp _ => by
    simp only [List.get] at hp
    simp [position, hp]
  | x :: xs, j + 1, hj => fun hp hfirst => by
    have hx : p x = false := hfirst 0 (Nat.succ_pos _) (Nat.succ_pos _)
    have hrec := position_eq_some_of_first p xs j (Nat.lt_of_succ_lt_succ hj) hp
      (fun k hk hkj => hfirst (k + 1) (Nat.succ_lt_succ hk) (Nat.succ_lt_succ hkj))
    simp [position, hx, hrec]

theorem is_complete_mk_nat (i : Nat) :
    ({ graphics_family := (i : Int), present_family := (i : Int) } :
      QueueFamilyIndices).is_complete = true := by
  simp [QueueFamilyIndices.is_complete, Int.natCast_nonneg]

theorem new_not_complete : QueueFamilyIndices.new.is_complete = false := by
  decide

theorem i32_cast_of_lt (i : Nat) (h : i < 2 ^ 31) : i32_cast i = (i : Int) := by
  unfold i32_cast
  have h1 : i % 2 ^ 32 = i := Nat.mod_eq_of_lt (by omega)
  rw [h1, if_pos h]

theorem find_queue_families_aux_first :
    ∀ (fs : List QueueFamily) (i j : Nat),
      position (fun qf => qf.supports_graphics) fs = Option.some j →
      i + j < 2 ^ 31 →
      find_queue_families_aux i QueueFamilyIndices.new fs =
        { graphics_family := ((i + j : Nat) : Int),
          present_family := ((i + j : Nat) : Int) }
  | [], i, j => by simp [position]
  | qf :: rest, i, j => fun hpos hlt => by
    by_cases hg : qf.supports_graphics = true
    · simp only [position] at hpos
      rw [if_pos hg] at hpos
      obtain rfl : (0 : Nat) = j := Option.some.inj hpos
      have hi : i < 2 ^ 31 := by omega
      have hcast : i32_cast i = (i : Int) := i32_cast_of_lt i hi
      simp [find_queue_families_aux, hg, hcast, is_complete_mk_nat]
    · simp only [position] at hpos
      rw [if_neg hg] at hpos
      simp only [Bool.not_eq_true] at hg
      cases hrest : position (fun qf => qf.supports_graphics) rest with
      | none => rw [hrest] at hpos; simp at hpos
      | some j' =>
        rw [hrest] at hpos
        simp only [Option.map_some'] at hpos
        obtain rfl : j' + 1 = j := Option.some.inj hpos
        simp only [find_queue_families_aux, hg, Bool.false_eq_true, if_false,
          new_not_complete]
        rw [find_queue_families_aux_first rest (i + 1) j' hrest (by omega)]
        have harith : i + 1 + j' = i + (j' + 1) := by omega
        rw [harith]

theorem find_queue_families_aux_none :
    ∀ (fs : List QueueFamily) (i : Nat),
      position (fun qf => qf.supports_graphics) fs = Option.none →
      find_queue_families_aux i QueueFamilyIndices.new fs = QueueFamilyIndices.new
  | [], i => fun _ => rfl
  | qf :: rest, i => fun hpos => by
    simp only [position] at hpos
    by_cases hg : qf.supports_graphics = true
    · rw [if_pos hg] at hpos
      exact Option.noConfusion hpos
    · rw [if_neg hg] at hpos
      simp only [Bool.not_eq_true] at hg
      have hrest : position (fun qf => qf.supports_graphics) rest = Option.none := by
        cases hr : position (fun qf => qf.supports_graphics) rest with
        | none => rfl
        | some j => rw [hr] at hpos; simp at hpos
      simp only [find_queue_families_aux, hg, Bool.false_eq_true, if_false,
        new_not_complete]
      exact find_queue_families_aux_none rest (i + 1) hrest

theorem find_queue_families_aux_replicate :
    ∀ (n i : Nat) (rest : List QueueFamily),
      find_queue_families_aux i QueueFamilyIndices.new
          (List.replicate n { supports_graphics := false } ++ rest) =
        find_queue_families_aux (i + n) QueueFamilyIndices.new rest
  | 0, i, rest => by simp
  | n + 1, i, rest => by
    rw [List.replicate_succ, List.cons_append]
    simp only [find_queue_families_aux, Bool.false_eq_true, if_false,
      new_not_complete]
    rw [find_queue_families_aux_replicate n (i + 1) rest]
    have harith : i + 1 + n = i + (n + 1) := by omega
    rw [harith]

theorem find_queue_families_aux_eq_families :
    ∀ (fs : List QueueFamily) (i : Nat) (acc : QueueFamilyIndices),
      acc.graphics_family = acc.present_family →
      (find_queue_families_aux i acc fs).graphics_family =
        (find_queue_families_aux i acc fs).present_family
  | [], i, acc => fun h => h
  | qf :: rest, i, acc => fun h => by
    simp only [find_queue_families_aux]
    by_cases hg : qf.supports_graphics = true
    · rw [if_pos hg]
      by_cases hc : QueueFamilyIndices.is_complete
          { graphics_family := i32_cast i, present_family := i32_cast i } = true
      · rw [if_pos hc]
      · rw [if_neg hc]
        exact find_queue_families_aux_eq_families rest (i + 1) _ rfl
    · rw [if_neg hg]
      by_cases hc : acc.is_complete = true
      · rw [if_pos hc]; exact h
      · rw [if_neg hc]
        exact find_queue_families_aux_eq_families rest (i + 1) acc h

theorem suitable_iff (d : PhysicalDevice) :
    is_device_suitable d = true ↔
      (find_queue_families d.queue_families).is_complete = true ∧
      check_device_extension_support d = true ∧
      d.capabilities.supported_formats ≠ [] ∧
      d.capabilities.present_modes.any_supported = true := by
  simp only [is_device_suitable, query_swap_chain_support]
  by_cases hext : check_device_extension_support d
  · simp [hext, List.isEmpty_iff, and_assoc]
  · simp only [Bool.not_eq_true] at hext
    simp [hext]

/-- Capabilities of a typical adequate device, used in concrete checks. -/
def sample_capabilities : Capabilities :=
  { min_image_count := 2, max_image_count := Option.some 4,
    current_extent := Option.none, min_image_extent := (1, 1),
    max_image_extent := (4096, 4096),
    supported_formats :=
      [(Format.R8G8B8A8Unorm, ColorSpace.SrgbNonLinear), preferred_format],
    present_modes :=
      { immediate := false, mailbox := true, fifo := true, relaxed := false,
        shared_demand := false, shared_continuous := false } }

/-- A fully suitable device: graphics queue family, swapchain extension,
adequate surface capabilities. -/
def good_device : PhysicalDevice :=
  { queue_families := [{ supports_graphics := true }],
    supported_extensions := device_extensions,
    capabilities := sample_capabilities }

/-- A device that lacks the required khr_swapchain extension. -/
def no_extension_device : PhysicalDevice :=
  { queue_families := [{ supports_graphics := true }],
    supported_extensions := DeviceExtensions.none,
    capabilities := sample_capabilities }

/-- Claim C1: for every device list containing at least one device with a
complete queue-family resolution, full required-extension support, and
non-empty supported-format and present-mode sets, the physical-device
selection pick_physical_device (with suitability predicate
is_device_suitable) returns the index of the first such device in
enumeration order: the returned index names a suitable device and every
earlier index names an unsuitable one. -/
theorem pick_physical_device_first_suitable (devices : List PhysicalDevice)
    (i : Nat) (hi : i < devices.length)
    (hq : (find_queue_families (devices.get ⟨i, hi⟩).queue_families).is_complete = true)
    (hext : check_device_extension_support (devices.get ⟨i, hi⟩) = true)
    (hfmt : (devices.get ⟨i, hi⟩).capabilities.supported_formats ≠ [])
    (hpm : (devices.get ⟨i, hi⟩).capabilities.present_modes.any_supported = true) :
    ∃ j, ∃ hj : j < devices.length, pick_physical_device devices = Option.some j ∧
      is_device_suitable (devices.get ⟨j, hj⟩) = true ∧
      ∀ k (hk : k < devices.length), k < j →
        is_device_suitable (devices.get ⟨k, hk⟩) = false := by
  have hsuit : is_device_suitable (devices.get ⟨i, hi⟩) = true :=
    (suitable_iff _).2 ⟨hq, hext, hfmt, hpm⟩
  obtain ⟨j, hj⟩ := position_exists_of_mem is_device_suitable devices _
    (devices.get_mem _ _) hsuit
  obtain ⟨hjl, hpj, hfirst⟩ := position_eq_some is_device_suitable devices j hj
  exact ⟨j, hjl, hj, hpj, hfirst⟩

/-- Witness for C1 at a concrete two-device list: the device without the
swapchain extension comes first, the suitable device is at index 1. -/
theorem pick_physical_device_first_suitable_witness :
    (1 < ([no_extension_device, good_device] : List PhysicalDevice).length) ∧
    (∃ j, ∃ hj : j < ([no_extension_device, good_device] : List PhysicalDevice).length,
      pick_physical_device [no_extension_device, good_device] = Option.some j ∧
      is_device_suitable (([no_extension_device, good_device] :
        List PhysicalDevice).get ⟨j, hj⟩) = true ∧
      ∀ k (hk : k < ([no_extension_device, good_device] : List PhysicalDevice).length),
        k < j → is_device_suitable (([no_extension_device, good_device] :
          List PhysicalDevice).get ⟨k, hk⟩) = false) :=
  ⟨by decide, pick_physical_device_first_suitable [no_extension_device, good_device] 1
    (by decide) (by decide) (by decide) (by decide) (by decide)⟩

/-- Claim C2 (amended): for every device list in which no device is
suitable, physical-device selection fails with the no-suitable-GPU error
and no later stage runs: any continuation modelling logical-device and
swapchain creation is never invoked, the composed pipeline returning the
selection error itself.  (The failure is not distinguishable between an
empty device list and a non-empty list of unsuitable devices; see the
counterexample.) -/
theorem pick_physical_device_none_suitable (devices : List PhysicalDevice)
    (h : ∀ d ∈ devices, is_device_suitable d = false) :
    pick_physical_device_result devices =
      Except.error "failed to find a suitable GPU!" ∧
    ∀ f : Nat → Except String Unit,
      (pick_physical_device_result devices >>= f) =
        Except.error "failed to find a suitable GPU!" := by
  have hnone : pick_physical_device devices = Option.none :=
    (position_eq_none is_device_suitable devices).2 h
  have herr : pick_physical_device_result devices =
      Except.error "failed to find a suitable GPU!" := by
    simp [pick_physical_device_result, hnone]
  refine ⟨herr, fun f => ?_⟩
  rw [herr]
  rfl

/-- Witness for C2 at a concrete one-device list whose device lacks the
swapchain extension. -/
theorem pick_physical_device_none_suitable_witness :
    (∀ d ∈ ([no_extension_device] : List PhysicalDevice),
      is_device_suitable d = false) ∧
    pick_physical_device_result [no_extension_device] =
      Except.error "failed to find a suitable GPU!" :=
  ⟨by decide, (pick_physical_device_none_suitable [no_extension_device] (by decide)).1⟩

/-- Counterexample to C2 as stated: the failure for the empty device list
("no GPU present") is the identical error value as the failure for a
non-empty list whose only device lacks the swapchain extension ("no GPU
meets requirements") — the two cases are not distinguishable. -/
theorem pick_physical_device_error_indistinguishable :
    pick_physical_device_result [] =
      pick_physical_device_result [no_extension_device] ∧
    pick_physical_device_result [] =
      Except.error "failed to find a suitable GPU!" := by
  constructor
  · rfl
  · rfl

/-- Claim C3 (amended): find_queue_families scans families in index
order; when the first family whose flags include graphics sits at an
index below 2 ^ 31 that index is recorded (as i32) as both the graphics
family and the present family and the scan stops there; when no family
supports graphics both indices remain the -1 sentinel and no error is
raised; the result is complete iff both indices are non-negative.  (At
indices at or above 2 ^ 31 the i32 cast of the index wraps to a
negative value, the result stays incomplete there and the scan
continues; see the counterexample.) -/
theorem find_queue_families_spec (families : List QueueFamily) :
    (∀ j, ∀ hj : j < families.length, j < 2 ^ 31 →
      (families.get ⟨j, hj⟩).supports_graphics = true →
      (∀ k (hk : k < families.length), k < j →
        (families.get ⟨k, hk⟩).supports_graphics = false) →
      find_queue_families families =
        { graphics_family := (j : Int), present_family := (j : Int) } ∧
      (find_queue_families families).is_complete = true) ∧
    ((∀ qf ∈ families, qf.supports_graphics = false) →
      find_queue_families families =
        { graphics_family := -1, present_family := -1 } ∧
      (find_queue_families families).is_complete = false) ∧
    ((find_queue_families families).is_complete = true ↔
      0 ≤ (find_queue_families families).graphics_family ∧
      0 ≤ (find_queue_families families).present_family) := by
  refine ⟨?_, ?_, ?_⟩
  · intro j hj hj31 hg hfirst
    have hpos : position (fun qf => qf.supports_graphics) families = Option.some j :=
      position_eq_some_of_first _ families j hj hg hfirst
    have hval : find_queue_families families =
        { graphics_family := (j : Int), present_family := (j : Int) } := by
      have haux := find_queue_families_aux_first families 0 j hpos (by omega)
      simpa [find_queue_families] using haux
    exact ⟨hval, by rw [hval]; exact is_complete_mk_nat j⟩
  · intro hall
    have hnone : position (fun qf => qf.supports_graphics) families = Option.none :=
      (position_eq_none _ families).2 hall
    have hval : find_queue_families families = QueueFamilyIndices.new := by
      simpa [find_queue_families] using
        find_queue_families_aux_none families 0 hnone
    exact ⟨hval, by rw [hval]; exact new_not_complete⟩
  · simp [QueueFamilyIndices.is_complete]

/-- Witness for C3 at a concrete family list whose first graphics-capable
family sits at index 1. -/
theorem find_queue_families_spec_witness :
    find_queue_families
        [{ supports_graphics := false }, { supports_graphics := true }] =
      { graphics_family := 1, present_family := 1 } ∧
    (find_queue_families
        [{ supports_graphics := false }, { supports_graphics := true }]).is_complete
      = true :=
  (find_queue_families_spec
      [{ supports_graphics := false }, { supports_graphics := true }]).1 1
    (by decide) (by decide) (by decide)
    (fun k hk hkj => by
      have hk0 : k = 0 := by omega
      subst hk0
      rfl)

/-- A queue-family list whose first (and only) graphics-capable family
sits at index 2 ^ 31: representable in the Rust program, where the
i as i32 cast of that index wraps to a negative value. -/
def wrap_families : List QueueFamily :=
  List.replicate (2 ^ 31) { supports_graphics := false } ++
    [{ supports_graphics := true }]

/-- Counterexample to C3 as stated: on a list containing a
graphics-capable family, at index 2 ^ 31, find_queue_families does not
record that index — the i32 cast wraps, both recorded indices are the
negative value -(2 ^ 31) and the result is not complete. -/
theorem find_queue_families_wrap_counterexample :
    ({ supports_graphics := true } : QueueFamily) ∈ wrap_families ∧
    find_queue_families wrap_families =
      { graphics_family := -(2 ^ 31 : Int), present_family := -(2 ^ 31 : Int) } ∧
    (find_queue_families wrap_families).is_complete = false := by
  have hcast : i32_cast (2 ^ 31) = -(2 ^ 31 : Int) := by decide
  have hres : find_queue_families wrap_families =
      { graphics_family := -(2 ^ 31 : Int), present_family := -(2 ^ 31 : Int) } := by
    unfold find_queue_families wrap_families
    rw [find_queue_families_aux_replicate]
    simp only [Nat.zero_add]
    simp only [find_queue_families_aux, ite_self, if_true]
    rw [hcast]
  refine ⟨?_, hres, ?_⟩
  · show ({ supports_graphics := true } : QueueFamily) ∈
      List.replicate (2 ^ 31) ({ supports_graphics := false } : QueueFamily) ++
        [{ supports_graphics := true }]
    exact List.mem_append_right _ (List.mem_singleton_self _)
  · rw [hres]
    decide

/-- The predicate of the find inside choose_swap_surface_format is true
exactly on the preferred pair. -/
theorem preferred_pred_iff (fc : Format × ColorSpace) :
    (decide (fc.1 = Format.B8G8R8A8Unorm) &&
      decide (fc.2 = ColorSpace.SrgbNonLinear)) = true ↔
    fc = preferred_format := by
  cases fc with
  | mk f c => simp [preferred_format, Prod.ext_iff]

/-- Claim C4: for every non-empty supported-format list,
choose_swap_surface_format returns the pair (B8G8R8A8Unorm,
SrgbNonLinear) whenever that pair is present in the list, otherwise the
first pair of the list in enumeration order; in all cases the result is
an element of the supplied list. -/
theorem choose_swap_surface_format_spec (l : List (Format × ColorSpace))
    (hne : l ≠ []) :
    (preferred_format ∈ l →
      choose_swap_surface_format l = Option.some preferred_format) ∧
    (preferred_format ∉ l → choose_swap_surface_format l = l.head?) ∧
    (∀ fc, choose_swap_surface_format l = Option.some fc → fc ∈ l) := by
  refine ⟨?_, ?_, ?_⟩
  · intro hmem
    cases hf : l.find? (fun fc =>
        decide (fc.1 = Format.B8G8R8A8Unorm) &&
          decide (fc.2 = ColorSpace.SrgbNonLinear)) with
    | some fc =>
      have hp := List.find?_some hf
      have hfc : fc = preferred_format := (preferred_pred_iff fc).1 hp
      subst hfc
      simp [choose_swap_surface_format, hf]
    | none =>
      exfalso
      have hnot := List.find?_eq_none.1 hf preferred_format hmem
      exact hnot ((preferred_pred_iff preferred_format).2 rfl)
  · intro hnmem
    have hf : l.find? (fun fc =>
        decide (fc.1 = Format.B8G8R8A8Unorm) &&
          decide (fc.2 = ColorSpace.SrgbNonLinear)) = Option.none := by
      rw [List.find?_eq_none]
      intro a ha hpa
      exact hnmem (by rwa [(preferred_pred_iff a).1 hpa] at ha)
    simp [choose_swap_surface_format, hf]
  · intro fc hfc
    cases hf : l.find? (fun fc =>
        decide (fc.1 = Format.B8G8R8A8Unorm) &&
          decide (fc.2 = ColorSpace.SrgbNonLinear)) with
    | some fc' =>
      simp only [choose_swap_surface_format, hf] at hfc
      obtain rfl : fc' = fc := Option.some.inj hfc
      exact List.mem_of_find?_eq_some hf
    | none =>
      simp only [choose_swap_surface_format, hf] at hfc
      cases l with
      | nil => exact absurd rfl hne
      | cons x xs =>
        obtain rfl : x = fc := Option.some.inj hfc
        exact List.mem_cons_self x xs

/-- Witness for C4 at a concrete two-element format list containing the
preferred pair in second place. -/
theorem choose_swap_surface_format_spec_witness :
    preferred_format ∈
      [(Format.R8G8B8A8Unorm, ColorSpace.SrgbNonLinear), preferred_format] ∧
    choose_swap_surface_format
        [(Format.R8G8B8A8Unorm, ColorSpace.SrgbNonLinear), preferred_format] =
      Option.some preferred_format :=
  ⟨by decide,
    (choose_swap_surface_format_spec
      [(Format.R8G8B8A8Unorm, ColorSpace.SrgbNonLinear), preferred_format]
      (by decide)).1 (by decide)⟩

/-- Claim C5: for every set of supported present modes,
choose_swap_present_mode returns Mailbox if mailbox is offered;
otherwise Immediate if immediate is offered; otherwise Fifo. -/
theorem choose_swap_present_mode_spec (m : SupportedPresentModes) :
    (m.mailbox = true → choose_swap_present_mode m = PresentMode.Mailbox) ∧
    (m.mailbox = false → m.immediate = true →
      choose_swap_present_mode m = PresentMode.Immediate) ∧
    (m.mailbox = false → m.immediate = false →
      choose_swap_present_mode m = PresentMode.Fifo) := by
  refine ⟨fun h1 => ?_, fun h1 h2 => ?_, fun h1 h2 => ?_⟩
  · simp [choose_swap_present_mode, h1]
  · simp [choose_swap_present_mode, h1, h2]
  · simp [choose_swap_present_mode, h1, h2]

/-- Witness for C5 at a concrete mode set offering mailbox. -/
theorem choose_swap_present_mode_spec_witness :
    ({ immediate := false, mailbox := true, fifo := true, relaxed := false,
       shared_demand := false, shared_continuous := false } :
      SupportedPresentModes).mailbox = true ∧
    choose_swap_present_mode
        { immediate := false, mailbox := true, fifo := true, relaxed := false,
          shared_demand := false, shared_continuous := false } =
      PresentMode.Mailbox :=
  ⟨rfl, (choose_swap_present_mode_spec
      { immediate := false, mailbox := true, fifo := true, relaxed := false,
        shared_demand := false, shared_continuous := false }).1 rfl⟩

/-- Claim C6: for every Capabilities value that is well-formed in the
Vulkan sense (min_image_extent ≤ max_image_extent component-wise, and a
defined current_extent lies within those bounds), choose_swap_extent
returns current_extent verbatim whenever it is defined, and otherwise
clamps the desired default extent (WIDTH, HEIGHT) = (800, 600)
component-wise into [min_image_extent, max_image_extent]; the chosen
extent always lies within [min_image_extent, max_image_extent]
component-wise. -/
theorem choose_swap_extent_spec (c : Capabilities)
    (hw : c.min_image_extent.1 ≤ c.max_image_extent.1)
    (hh : c.min_image_extent.2 ≤ c.max_image_extent.2)
    (hcur : ∀ e, c.current_extent = Option.some e →
      c.min_image_extent.1 ≤ e.1 ∧ e.1 ≤ c.max_image_extent.1 ∧
      c.min_image_extent.2 ≤ e.2 ∧ e.2 ≤ c.max_image_extent.2) :
    (∀ e, c.current_extent = Option.some e → choose_swap_extent c = e) ∧
    (c.current_extent = Option.none →
      (choose_swap_extent c).1 =
        Nat.max c.min_image_extent.1 (Nat.min c.max_image_extent.1 WIDTH) ∧
      (choose_swap_extent c).2 =
        Nat.max c.min_image_extent.2 (Nat.min c.max_image_extent.2 HEIGHT) ∧
      (c.min_image_extent.1 ≤ WIDTH → WIDTH ≤ c.max_image_extent.1 →
        (choose_swap_extent c).1 = WIDTH) ∧
      (WIDTH < c.min_image_extent.1 →
        (choose_swap_extent c).1 = c.min_image_extent.1) ∧
      (c.max_image_extent.1 < WIDTH →
        (choose_swap_extent c).1 = c.max_image_extent.1) ∧
      (c.min_image_extent.2 ≤ HEIGHT → HEIGHT ≤ c.max_image_extent.2 →
        (choose_swap_extent c).2 = HEIGHT) ∧
      (HEIGHT < c.min_image_extent.2 →
        (choose_swap_extent c).2 = c.min_image_extent.2) ∧
      (c.max_image_extent.2 < HEIGHT →
        (choose_swap_extent c).2 = c.max_image_extent.2)) ∧
    (c.min_image_extent.1 ≤ (choose_swap_extent c).1 ∧
      (choose_swap_extent c).1 ≤ c.max_image_extent.1 ∧
      c.min_image_extent.2 ≤ (choose_swap_extent c).2 ∧
      (choose_swap_extent c).2 ≤ c.max_image_extent.2) := by
  cases hce : c.current_extent with
  | some e =>
    obtain ⟨h1, h2, h3, h4⟩ := hcur e hce
    have hch : choose_swap_extent c = e := by simp [choose_swap_extent, hce]
    refine ⟨fun e' he' => ?_, fun hn => ?_, ?_⟩
    · rw [hch, Option.some.inj he']
    · exact absurd hn (by simp)
    · rw [hch]
      exact ⟨h1, h2, h3, h4⟩
  | none =>
    have hch : choose_swap_extent c =
        (Nat.max c.min_image_extent.1 (Nat.min c.max_image_extent.1 WIDTH),
         Nat.max c.min_image_extent.2 (Nat.min c.max_image_extent.2 HEIGHT)) := by
      simp [choose_swap_extent, hce]
    refine ⟨fun e' he' => ?_, fun hn => ?_, ?_⟩
    · exact absurd he' (by simp)
    · rw [hch]
      refine ⟨rfl, rfl, ?_, ?_, ?_, ?_, ?_, ?_⟩ <;> intros <;>
        simp only [Nat.max_def, Nat.min_def] <;> split_ifs <;> omega
    · rw [hch]
      refine ⟨?_, ?_, ?_, ?_⟩ <;>
        simp only [Nat.max_def, Nat.min_def] <;> split_ifs <;> omega

/-- Witness for C6 at concrete capabilities without a current extent:
(800, 600) is within the bounds and is chosen unclamped. -/
theorem choose_swap_extent_spec_witness :
    sample_capabilities.min_image_extent.1 ≤
      sample_capabilities.max_image_extent.1 ∧
    (sample_capabilities.min_image_extent.1 ≤
        (choose_swap_extent sample_capabilities).1 ∧
      (choose_swap_extent sample_capabilities).1 ≤
        sample_capabilities.max_image_extent.1 ∧
      sample_capabilities.min_image_extent.2 ≤
        (choose_swap_extent sample_capabilities).2 ∧
      (choose_swap_extent sample_capabilities).2 ≤
        sample_capabilities.max_image_extent.2) :=
  ⟨by decide, (choose_swap_extent_spec sample_capabilities (by decide) (by decide)
    (fun e he => by simp [sample_capabilities] at he)).2.2⟩

/-- Claim C7: for every Capabilities value whose u32 image-count fields
are well-formed (the increment min_image_count + 1 does not overflow,
and min_image_count ≤ max_image_count when the latter is bounded), the
chosen swapchain image count is exactly min_image_count + 1 when
max_image_count is unbounded, and lies within
[min_image_count, max_image_count] when bounded, equal to
max_image_count when min_image_count + 1 exceeds it. -/
theorem swap_chain_image_count_spec (c : Capabilities)
    (hov : c.min_image_count + 1 < 2 ^ 32) :
    (c.max_image_count = Option.none →
      swap_chain_image_count c = c.min_image_count + 1) ∧
    (∀ m, c.max_image_count = Option.some m → c.min_image_count ≤ m →
      c.min_image_count ≤ swap_chain_image_count c ∧
      swap_chain_image_count c ≤ m ∧
      (m < c.min_image_count + 1 → swap_chain_image_count c = m)) := by
  have hmod : (c.min_image_count + 1) % 2 ^ 32 = c.min_image_count + 1 :=
    Nat.mod_eq_of_lt hov
  constructor
  · intro hn
    simp only [swap_chain_image_count, hn]
    exact hmod
  · intro m hm hle
    simp only [swap_chain_image_count, hm, hmod]
    by_cases hgt : c.min_image_count + 1 > m
    · rw [if_pos hgt]
      omega
    · rw [if_neg hgt]
      omega

/-- Witness for C7 at concrete capabilities with min 2 and max 4: the
chosen count 3 lies within the bounds. -/
theorem swap_chain_image_count_spec_witness :
    sample_capabilities.min_image_count + 1 < 2 ^ 32 ∧
    (sample_capabilities.min_image_count ≤
        swap_chain_image_count sample_capabilities ∧
      swap_chain_image_count sample_capabilities ≤ 4 ∧
      (4 < sample_capabilities.min_image_count + 1 →
        swap_chain_image_count sample_capabilities = 4)) :=
  ⟨by decide, (swap_chain_image_count_spec sample_capabilities (by decide)).2 4
    (by decide) (by decide)⟩

/-- Claim C8: for every queue-family list the two indices returned by
find_queue_families are equal (graphics_family = present_family,
possibly both -1); consequently the sharing-mode condition
graphics_family different from present_family in create_swap_chain is
never true, so the sharing mode is always exclusive and the
concurrent-sharing branch is unreachable. -/
theorem find_queue_families_sharing_exclusive (families : List QueueFamily) :
    (find_queue_families families).graphics_family =
      (find_queue_families families).present_family ∧
    swap_chain_sharing_mode (find_queue_families families) =
      SharingMode.Exclusive := by
  have h : (find_queue_families families).graphics_family =
      (find_queue_families families).present_family :=
    find_queue_families_aux_eq_families families 0 QueueFamilyIndices.new rfl
  refine ⟨h, ?_⟩
  simp [swap_chain_sharing_mode, h]

/-- Claim C9: choose_swap_surface_format is total exactly on non-empty
format lists — it returns none, the embedding of the index-0 panic,
precisely on the empty list — and the suitability check of
is_device_suitable, which requires a non-empty supported-format list,
makes that panic branch unreachable in the pipeline: every suitable
device yields a defined chosen format. -/
theorem choose_swap_surface_format_total_on_suitable :
    (∀ l : List (Format × ColorSpace),
      choose_swap_surface_format l = Option.none ↔ l = []) ∧
    (∀ d : PhysicalDevice, is_device_suitable d = true →
      (choose_swap_surface_format d.capabilities.supported_formats).isSome
        = true) := by
  have htot : ∀ l : List (Format × ColorSpace),
      choose_swap_surface_format l = Option.none ↔ l = [] := by
    intro l
    cases l with
    | nil => simp [choose_swap_surface_format]
    | cons x xs =>
      cases hf : (x :: xs).find? (fun fc =>
          decide (fc.1 = Format.B8G8R8A8Unorm) &&
            decide (fc.2 = ColorSpace.SrgbNonLinear)) with
      | some fc => simp [choose_swap_surface_format, hf]
      | none => simp [choose_swap_surface_format, hf]
  refine ⟨htot, fun d hd => ?_⟩
  have hne : d.capabilities.supported_formats ≠ [] :=
    ((suitable_iff d).1 hd).2.2.1
  cases hchoose : choose_swap_surface_format d.capabilities.supported_formats with
  | some fc => rfl
  | none => exact absurd ((htot _).1 hchoose) hne

/-- Witness for C9 at the concrete suitable device. -/
theorem choose_swap_surface_format_total_witness :
    is_device_suitable good_device = true ∧
    (choose_swap_surface_format good_device.capabilities.supported_formats).isSome
      = true :=
  ⟨by decide, choose_swap_surface_format_total_on_suitable.2 good_device (by decide)⟩

/-- Claim C10: choose_swap_present_mode is total and never fails: for
every input it returns one of Mailbox, Immediate, Fifo, and it returns
Fifo whenever neither mailbox nor immediate is offered, regardless of
whether fifo itself is flagged as supported in the input set. -/
theorem choose_swap_present_mode_total (m : SupportedPresentModes) :
    (choose_swap_present_mode m = PresentMode.Mailbox ∨
      choose_swap_present_mode m = PresentMode.Immediate ∨
      choose_swap_present_mode m = PresentMode.Fifo) ∧
    (m.mailbox = false → m.immediate = false →
      choose_swap_present_mode m = PresentMode.Fifo) ∧
    (∀ b : Bool, choose_swap_present_mode { m with fifo := b } =
      choose_swap_present_mode m) := by
  refine ⟨?_, fun h1 h2 => ?_, fun b => ?_⟩
  · by_cases h1 : m.mailbox = true
    · exact Or.inl (by simp [choose_swap_present_mode, h1])
    · simp only [Bool.not_eq_true] at h1
      by_cases h2 : m.immediate = true
      · exact Or.inr (Or.inl (by simp [choose_swap_present_mode, h1, h2]))
      · simp only [Bool.not_eq_true] at h2
        exact Or.inr (Or.inr (by simp [choose_swap_present_mode, h1, h2]))
  · simp [choose_swap_present_mode, h1, h2]
  · rfl

/-- Witness for C10 at a mode set offering neither mailbox nor immediate
and with the fifo flag itself false: Fifo is still returned. -/
theorem choose_swap_present_mode_total_witness :
    ({ immediate := false, mailbox := false, fifo := false, relaxed := false,
       shared_demand := false, shared_continuous := false } :
      SupportedPresentModes).mailbox = false ∧
    choose_swap_present_mode
        { immediate := false, mailbox := false, fifo := false, relaxed := false,
          shared_demand := false, shared_continuous := false } =
      PresentMode.Fifo :=
  ⟨rfl, (choose_swap_present_mode_total
      { immediate := false, mailbox := false, fifo := false, relaxed := false,
        shared_demand := false, shared_continuous := false }).2.1 rfl rfl⟩

example : find_queue_families [⟨false⟩, ⟨true⟩, ⟨true⟩] =
    { graphics_family := 1, present_family := 1 } := by decide

example : find_queue_families [⟨false⟩, ⟨false⟩] =
    { graphics_family := -1, present_family := -1 } := by decide

example : choose_swap_present_mode
    { immediate := true, mailbox := false, fifo := true, relaxed := false,
      shared_demand := false, shared_continuous := false } =
    PresentMode.Immediate := by decide

example :
    choose_swap_surface_format
      [(Format.R8G8B8A8Unorm, ColorSpace.SrgbNonLinear), preferred_format] =
    Option.some preferred_format := by decide

example :
    swap_chain_image_count
      { min_image_count := 2, max_image_count := Option.some 4,
        current_extent := Option.none, min_image_extent := (1, 1),
        max_image_extent := (4096, 4096), supported_formats := [],
        present_modes := ⟨false, false, true, false, false, false⟩ } = 3 := by
  decide
